import Mathlib

/-!
Verification of the gambit-sbc-hwmonitor core: the CPU usage calculator and
process cache (`internal/sensors/cpu.go`) and the wifi link-status backends
(the `wifimonitor` package).

Shallow embedding conventions:
* Go strings are modelled as `List Char` (`GoStr`); all the Go standard
  library string operations the code uses are re-implemented structurally so
  that they are kernel-computable.  Lengths are rune counts, which coincide
  with Go's byte lengths on the ASCII data these functions handle.
* Go `float64` values are modelled as exact rationals (`ℚ`); the code only
  performs a handful of arithmetic operations on values far from the ends of
  the double range, where rounding does not change any of the stated
  comparisons.
* Fallible operations return `Except`; Go runtime panics (out-of-range slice
  indexing) are modelled by the `GoResult.panic` constructor.
* The OS (file reads, process enumeration, subprocess output) is an explicit
  environment value passed to each function.
-/

namespace HwMonitor

/-- Go strings as lists of characters. -/
abbrev GoStr := List Char

/-- Embed a Lean string literal as a `GoStr`. -/
def lit (s : String) : GoStr := s.toList

/-- Go `strings.Split(s, sep)` for a one-character separator (the only kind
the code uses: `":"`, `"\n"`, `" "`, `"\x00"`).  Always returns at least one
(possibly empty) chunk, like Go. -/
def splitOnChar (sep : Char) : GoStr → List GoStr
  | [] => [[]]
  | c :: rest =>
    if c = sep then [] :: splitOnChar sep rest
    else match splitOnChar sep rest with
      | [] => [[c]]
      | h :: t => (c :: h) :: t

/-- Go `strings.HasPrefix(s, pre)`. -/
def goStartsWith (s pre : GoStr) : Bool := pre.isPrefixOf s

/-- Go `strings.HasSuffix(s, suf)`. -/
def goEndsWith (s suf : GoStr) : Bool := suf.reverse.isPrefixOf s.reverse

/-- Go `strings.Contains(s, sub)`. -/
def goContains : GoStr → GoStr → Bool
  | [], sub => sub.isEmpty
  | c :: rest, sub => sub.isPrefixOf (c :: rest) || goContains rest sub

/-- Whitespace recognised by Go's `unicode.IsSpace` restricted to ASCII (the
only whitespace appearing in the parsed tool outputs). -/
def goIsSpace (c : Char) : Bool :=
  c = ' ' || c = '\t' || c = '\n' || c = '\x0b' || c = '\x0c' || c = '\r'

/-- Go `strings.TrimSpace`. -/
def goTrimSpace (s : GoStr) : GoStr :=
  ((s.dropWhile goIsSpace).reverse.dropWhile goIsSpace).reverse

/-- Go `strings.TrimSuffix(s, suf)`. -/
def goTrimSuffix (s suf : GoStr) : GoStr :=
  if goEndsWith s suf then s.take (s.length - suf.length) else s

/-- Split at every character satisfying `p` (empty chunks kept). -/
def splitOnPred (p : Char → Bool) : GoStr → List GoStr
  | [] => [[]]
  | c :: rest =>
    if p c then [] :: splitOnPred p rest
    else match splitOnPred p rest with
      | [] => [[c]]
      | h :: t => (c :: h) :: t

/-- Go `strings.Fields`: the maximal runs of non-whitespace characters. -/
def goFields (s : GoStr) : List GoStr :=
  (splitOnPred goIsSpace s).filter (fun f => ¬ f.isEmpty)

/-- Value of a string of ASCII digits. -/
def digitsToNat (ds : GoStr) : Nat :=
  ds.foldl (fun a c => a * 10 + (c.toNat - 48)) 0

/-- Go `strconv.Atoi`.  Modelled with unbounded integers: the 64-bit range
check only fires on inputs of 19+ digits, which none of the verified
properties involve. -/
def goAtoi (s : GoStr) : Except GoStr Int :=
  let (neg, ds) : Bool × GoStr :=
    match s with
    | '-' :: t => (true, t)
    | '+' :: t => (false, t)
    | t => (false, t)
  if ds.isEmpty then .error (lit "invalid syntax")
  else if ds.all Char.isDigit then
    .ok (if neg then -(digitsToNat ds : Int) else (digitsToNat ds : Int))
  else .error (lit "invalid syntax")

/-- Go `strconv.ParseFloat(s, 64)` on plain decimal notation (`123`,
`-123.45`, `.5`, `5.`), the only shape the parsed tool outputs use; the
exotic accepted forms (exponents, hex floats, `Inf`, `NaN`, underscores) are
modelled as rejected, and the result is the exact rational value. -/
def goParseFloat (s : GoStr) : Except GoStr ℚ :=
  let (neg, ds) : Bool × GoStr :=
    match s with
    | '-' :: t => (true, t)
    | '+' :: t => (false, t)
    | t => (false, t)
  let signed (q : ℚ) : ℚ := if neg then -q else q
  match splitOnChar '.' ds with
  | [intPart] =>
    if ¬ intPart.isEmpty ∧ intPart.all Char.isDigit then
      .ok (signed (digitsToNat intPart : ℚ))
    else .error (lit "invalid syntax")
  | [intPart, fracPart] =>
    if ¬ (intPart.isEmpty ∧ fracPart.isEmpty) ∧ intPart.all Char.isDigit
        ∧ fracPart.all Char.isDigit then
      .ok (signed ((digitsToNat (intPart ++ fracPart) : ℚ) / 10 ^ fracPart.length))
    else .error (lit "invalid syntax")
  | _ => .error (lit "invalid syntax")

/-- Go `int(f)` conversion from `float64`: truncation toward zero. -/
def ratTruncToInt (q : ℚ) : Int := q.num / (q.den : Int)

/-- Go `path/filepath.Base` (Unix rules): empty path gives `"."`, trailing
slashes are stripped, the part after the last slash is kept, and an
all-slash path gives `"/"`. -/
def filepathBase (p : GoStr) : GoStr :=
  if p.isEmpty then lit "."
  else
    let q := (p.reverse.dropWhile (fun c => c = '/')).reverse
    let r := (q.reverse.takeWhile (fun c => c ≠ '/')).reverse
    if r.isEmpty then lit "/" else r

/-- Outcome of running a Go function that may panic (slice index out of
range). -/
inductive GoResult (α : Type) where
  | panic
  | value (val : α)
  deriving DecidableEq

/-! ## CPU usage calculator (`internal/sensors/cpu.go`) -/

/-- `CPUCoreStats` from `cpu.go`; `float64` fields modelled as exact
rationals, Go zero values as the default `0`. -/
structure CPUCoreStats where
  User : ℚ := 0
  Nice : ℚ := 0
  System : ℚ := 0
  Idle : ℚ := 0
  IOWait : ℚ := 0
  IRQ : ℚ := 0
  SoftIRQ : ℚ := 0
  Steal : ℚ := 0
  deriving DecidableEq

/-- The idle accumulator computed inside `CalculateUsage`. -/
def CPUCoreStats.idleSum (s : CPUCoreStats) : ℚ := s.Idle + s.IOWait

/-- The non-idle accumulator computed inside `CalculateUsage`. -/
def CPUCoreStats.nonIdleSum (s : CPUCoreStats) : ℚ :=
  s.User + s.Nice + s.System + s.IRQ + s.SoftIRQ + s.Steal

/-- The total accumulator computed inside `CalculateUsage`. -/
def CPUCoreStats.totalSum (s : CPUCoreStats) : ℚ := s.idleSum + s.nonIdleSum

/-- Modelled from the spec: `utils.RoundValue` (the `utils` package is not
part of the provided sources) rounds to the given number of decimal places.
Rounding is half-up, which agrees with Go's half-away-from-zero on the
nonnegative values the code applies it to. -/
def RoundValue (v : ℚ) (decimals : Nat) : ℚ :=
  (round (v * 10 ^ decimals) : ℚ) / 10 ^ decimals

/-- `CalculateUsage` from `cpu.go`, line for line. -/
def CalculateUsage (prev curr : CPUCoreStats) : ℚ :=
  let prevIdle := prev.Idle + prev.IOWait
  let currIdle := curr.Idle + curr.IOWait
  let prevNonIdle := prev.User + prev.Nice + prev.System + prev.IRQ + prev.SoftIRQ + prev.Steal
  let currNonIdle := curr.User + curr.Nice + curr.System + curr.IRQ + curr.SoftIRQ + curr.Steal
  let prevTotal := prevIdle + prevNonIdle
  let currTotal := currIdle + currNonIdle
  if currTotal ≤ prevTotal then -1
  else if currIdle < prevIdle then -1
  else
    let totalDelta := currTotal - prevTotal
    let idleDelta := currIdle - prevIdle
    let usage := ((totalDelta - idleDelta) / totalDelta) * 100
    if usage < 0 then 0
    else if usage > 100 then 100
    else RoundValue usage 2

/-- The spec's own description of the valid-sample formula: the analytic
percentage clamped to `[0,100]` and then rounded to two decimals.  Written
from the spec's words, to be compared with `CalculateUsage`. -/
def specUsagePercent (prev curr : CPUCoreStats) : ℚ :=
  let totalDelta := curr.totalSum - prev.totalSum
  let idleDelta := curr.idleSum - prev.idleSum
  RoundValue (min 100 (max 0 (((totalDelta - idleDelta) / totalDelta) * 100))) 2

/-! ## Wifi link-status backends (`wifimonitor` package) -/

/-- `networkStatus`: the canonical link snapshot.  Field set taken from the
uses in the backend parsers plus the spec's data model; Go zero values are
the defaults. -/
structure networkStatus where
  NetworkName : GoStr := []
  SignalStrength : Int := 0
  TxSpeedMbps : ℚ := 0
  RxSpeedMbps : ℚ := 0
  FrequencyMHz : Int := 0
  TxRetries : Int := 0
  TxFailed : Int := 0
  BeaconSignalAvg : Int := 0
  ConnectedTimeSec : Int := 0
  InactiveTimeMs : Int := 0
  deriving DecidableEq

/-- The error component of a backend result: the two typed sentinel errors
of the package, or a join (`errors.Join`) of field-level parse errors in
the order they were collected. -/
inductive wifiErr where
  | adapterNotFound
  | notConnected
  | parseErr (msgs : List GoStr)
  deriving DecidableEq

/-- A backend parse outcome: the Go pair `(*networkStatus, error)`, or a
runtime panic from out-of-range slice indexing. -/
abbrev WifiParseOutcome := GoResult (Option networkStatus × Option wifiErr)

/-- `nmcliWifiMonitor.parseNetworkStatus`: scans the `-t`-separated rows,
remembers whether any row ends with the adapter, and processes the first
row that also begins with `yes:`.  `col[6]` (then `col[5]`, `col[2]`) is
indexed after a split on `:`; fewer than 7 columns is an out-of-range panic
in Go, modelled by `.panic`. -/
def nmcliParseNetworkStatus (adapter out : GoStr) : WifiParseOutcome :=
  let lines := splitOnChar '\n' out
  match lines.find? (fun l => goEndsWith l adapter && goStartsWith l (lit "yes:")) with
  | some line =>
    let col := splitOnChar ':' line
    if col.length < 7 then .panic
    else
      let (signalStrength, e1) : Int × List GoStr :=
        match goAtoi (col.getD 6 []) with
        | .ok v => (v, [])
        | .error m => (-1, [m])
      let (linkSpeed, e2) : ℚ × List GoStr :=
        match goParseFloat ((splitOnChar ' ' (col.getD 5 [])).getD 0 []) with
        | .ok v => (v, [])
        | .error m => (-1, [m])
      let msgs := e1 ++ e2
      .value (some { NetworkName := col.getD 2 []
                     SignalStrength := -1 * signalStrength
                     TxSpeedMbps := linkSpeed },
              if msgs.isEmpty then none else some (.parseErr msgs))
  | none =>
    if lines.any (fun l => goEndsWith l adapter) then .value (none, some .notConnected)
    else .value (none, some .adapterNotFound)

/-- One iteration of the `iwWifiMonitor.parseNetworkStatus` line loop:
updates the snapshot under construction and the list of joined errors, or
panics on a bitrate line with no second space-separated token after the
colon. -/
def iwParseStep (st : networkStatus × List GoStr) (rawLine : GoStr) :
    GoResult (networkStatus × List GoStr) :=
  let line := goTrimSpace rawLine
  let status := st.1
  let errs := st.2
  if goStartsWith line (lit "SSID:") then
    let col := splitOnChar ':' line
    .value ({ status with NetworkName := goTrimSpace (col.getD 1 []) }, errs)
  else if goStartsWith line (lit "freq:") then
    let col := splitOnChar ':' line
    match goParseFloat (goTrimSpace (col.getD 1 [])) with
    | .error m => .value (status, errs ++ [m])
    | .ok freq => .value ({ status with FrequencyMHz := ratTruncToInt freq }, errs)
  else if goStartsWith line (lit "signal:") then
    let col := splitOnChar ':' line
    match goAtoi (goTrimSuffix (goTrimSpace (col.getD 1 [])) (lit " dBm")) with
    | .error m => .value ({ status with SignalStrength := -1 }, errs ++ [m])
    | .ok v => .value ({ status with SignalStrength := v }, errs)
  else if goStartsWith line (lit "rx bitrate:") then
    let col := splitOnChar ':' line
    let toks := splitOnChar ' ' (col.getD 1 [])
    if toks.length < 2 then .panic
    else
      match goParseFloat (toks.getD 1 []) with
      | .error m => .value ({ status with RxSpeedMbps := -1 }, errs ++ [m])
      | .ok v => .value ({ status with RxSpeedMbps := v }, errs)
  else if goStartsWith line (lit "tx bitrate:") then
    let col := splitOnChar ':' line
    let toks := splitOnChar ' ' (col.getD 1 [])
    if toks.length < 2 then .panic
    else
      match goParseFloat (toks.getD 1 []) with
      | .error m => .value ({ status with TxSpeedMbps := -1 }, errs ++ [m])
      | .ok v => .value ({ status with TxSpeedMbps := v }, errs)
  else .value st

/-- The `iw` parser's line loop, threading the accumulator through
`iwParseStep` and propagating a panic. -/
def iwParseLines (st : networkStatus × List GoStr) :
    List GoStr → GoResult (networkStatus × List GoStr)
  | [] => .value st
  | l :: rest =>
    match iwParseStep st l with
    | .panic => .panic
    | .value st' => iwParseLines st' rest

/-- `iwWifiMonitor.parseNetworkStatus`: typed errors for the "Not
connected" / "No such device" markers, otherwise the line loop over the
split output, returning the built snapshot together with the joined
field errors. -/
def iwParseNetworkStatus (out : GoStr) : WifiParseOutcome :=
  if goContains out (lit "Not connected") then .value (none, some .notConnected)
  else if goContains out (lit "No such device") then .value (none, some .adapterNotFound)
  else
    match iwParseLines ({}, []) (splitOnChar '\n' out) with
    | .panic => .panic
    | .value (status, errs) =>
      .value (some status, if errs.isEmpty then none else some (.parseErr errs))

/-- `procWifiMonitor.parseNetworkStatus`: finds the first trimmed line that
begins with the adapter name, splits it into whitespace fields, and parses
`col[3]` (trailing `.` stripped) and `col[2]`; fewer than 4 fields panics
(`col[3]` is indexed first), and either parse error aborts with a nil
snapshot. -/
def procParseNetworkStatus (adapter out : GoStr) : WifiParseOutcome :=
  let lines := (splitOnChar '\n' out).map goTrimSpace
  match lines.find? (fun l => goStartsWith l adapter) with
  | some line =>
    let col := goFields line
    if col.length < 4 then .panic
    else
      match goAtoi (goTrimSuffix (col.getD 3 []) (lit ".")) with
      | .error m => .value (none, some (.parseErr [m]))
      | .ok signalStrength =>
        match goParseFloat (col.getD 2 []) with
        | .error m => .value (none, some (.parseErr [m]))
        | .ok linkSpeed =>
          .value (some { NetworkName := lit "unknown"
                         SignalStrength := signalStrength
                         TxSpeedMbps := linkSpeed }, none)
  | none => .value (none, some .adapterNotFound)

/-- The three backend variants of the link-status provider. -/
inductive WifiBackend where
  | iw
  | nmcli
  | procfs
  deriving DecidableEq

/-- `Config.newWifiMonitor`: the construction-time backend selection.  The
three availability probes (`exec.LookPath("iw")`, `exec.LookPath("nmcli")`,
`os.Stat("/proc/net/wireless")`) are environment facts, passed as booleans. -/
def newWifiMonitor (iwOnPath nmcliOnPath procWirelessExists : Bool) : Option WifiBackend :=
  if iwOnPath then some .iw
  else if nmcliOnPath then some .nmcli
  else if procWirelessExists then some .procfs
  else none

/-- The spec's fixed priority order for backend selection, written from the
spec's words, to be compared with `newWifiMonitor`. -/
def specBackendOrder : List WifiBackend := [.iw, .nmcli, .procfs]

/-- Availability of each backend given the three environment probes. -/
def backendAvailable (iwOnPath nmcliOnPath procWirelessExists : Bool) :
    WifiBackend → Bool
  | .iw => iwOnPath
  | .nmcli => nmcliOnPath
  | .procfs => procWirelessExists

/-- Decidable equality for the `Except` results used throughout the
embedding. -/
instance exceptDecEq {ε α : Type} [DecidableEq ε] [DecidableEq α] :
    DecidableEq (Except ε α)
  | .error e, .error e' =>
    if h : e = e' then .isTrue (by rw [h]) else .isFalse (by intro hc; injection hc; exact h (by assumption))
  | .error _, .ok _ => .isFalse (fun hc => Except.noConfusion hc)
  | .ok _, .error _ => .isFalse (fun hc => Except.noConfusion hc)
  | .ok a, .ok b =>
    if h : a = b then .isTrue (by rw [h]) else .isFalse (by intro hc; injection hc; exact h (by assumption))

/-! ## Process handle memoization (`Process.Exe` / `Process.Cmdline`) -/

/-- The mutable part of a `Process` handle: whether the embedded
`*process.Process` is non-nil, and the two cached fields (`exe`,
`cmdline`), whose Go zero value `""` doubles as the "unset" sentinel. -/
structure ProcessHandle where
  hasInner : Bool
  exe : GoStr := []
  cmdline : GoStr := []
  deriving DecidableEq

/-- Outcome of one call on a handle: the returned `(string, error)` pair,
the handle state after the call, and whether the OS was consulted. -/
structure HandleCall where
  result : Except GoStr GoStr
  state : ProcessHandle
  consultedOS : Bool
  deriving DecidableEq

/-- `Process.Exe`: return the cached path if non-empty, fail on a nil inner
process, otherwise fetch from the OS (`fetch` is what `p.Process.Exe()`
would return on this call) and cache a successful result. -/
def exeCall (fetch : Except GoStr GoStr) (p : ProcessHandle) : HandleCall :=
  if ¬ p.exe.isEmpty then ⟨.ok p.exe, p, false⟩
  else if ¬ p.hasInner then ⟨.error (lit "process is nil"), p, false⟩
  else
    match fetch with
    | .error e => ⟨.error e, p, true⟩
    | .ok exe => ⟨.ok exe, { p with exe := exe }, true⟩

/-- `Process.Cmdline`: same caching discipline on the `cmdline` field. -/
def cmdlineCall (fetch : Except GoStr GoStr) (p : ProcessHandle) : HandleCall :=
  if ¬ p.cmdline.isEmpty then ⟨.ok p.cmdline, p, false⟩
  else if ¬ p.hasInner then ⟨.error (lit "process is nil"), p, false⟩
  else
    match fetch with
    | .error e => ⟨.error e, p, true⟩
    | .ok cmdline => ⟨.ok cmdline, { p with cmdline := cmdline }, true⟩

/-! ## Process cache (`ProcessMonitor.GetProcessesWithContext`) -/

/-- One enumerated OS process: its pid and the contents the two `/proc`
reads would return for it. -/
structure OSProc where
  pid : Int
  commFile : Except GoStr GoStr
  cmdlineFile : Except GoStr GoStr
  deriving DecidableEq

/-- `getProcName`: read `/proc/<pid>/comm` and strip one trailing
newline. -/
def getProcName (p : OSProc) : Except GoStr GoStr :=
  match p.commFile with
  | .error e => .error e
  | .ok contents => .ok (goTrimSuffix contents (lit "\n"))

/-- `getProcCmdline`: read `/proc/<pid>/cmdline`, split on NUL, and return
the first argument (`strings.Split` never returns an empty list, so the
"cmdline is empty" branch is kept for faithfulness but unreachable). -/
def getProcCmdline (p : OSProc) : Except GoStr GoStr :=
  match p.cmdlineFile with
  | .error e => .error e
  | .ok data =>
    let args := splitOnChar '\x00' data
    if args.length > 0 then .ok (args.getD 0 [])
    else .error (lit "cmdline is empty")

/-- The entry stored in the monitor's ordered map: the pid and the matched
name (`Process{Process: proc, PID: proc.Pid, Name: ...}`). -/
structure MonitoredProcess where
  pid : Int
  name : GoStr
  deriving DecidableEq

/-- Modelled from the spec: `utils.OrderedMap` (the `utils` package is not
part of the provided sources) is an insertion-ordered mapping with unique
keys, here an association list. -/
abbrev ProcMap := List (Int × MonitoredProcess)

/-- Modelled from the spec: `OrderedMap.Set` replaces the value of an
existing key in place, otherwise appends at the end (insertion order
preserved). -/
def ProcMap.set (m : ProcMap) (k : Int) (v : MonitoredProcess) : ProcMap :=
  if m.any (fun e => e.1 = k) then
    m.map (fun e => if e.1 = k then (k, v) else e)
  else m ++ [(k, v)]

/-- The matching decision `GetProcessesWithContext` makes for one
enumerated process against the configured target name: `some name` when the
process is stored (with the `Name` it is stored under), `none` when it is
skipped.  Names of at most 15 characters are compared against
`/proc/<pid>/comm`; longer names against the first NUL-separated
`/proc/<pid>/cmdline` argument (base name first, then verbatim). -/
def scanMatch (target : GoStr) (p : OSProc) : Option GoStr :=
  if target.length ≤ 15 then
    match getProcName p with
    | .error _ => none
    | .ok procName => if procName = target then some procName else none
  else
    match getProcCmdline p with
    | .error _ => none
    | .ok cmdline =>
      if cmdline.isEmpty then none
      else if filepathBase cmdline = target then some (filepathBase cmdline)
      else if cmdline = target then some cmdline
      else none

/-- Whether the per-process `/proc` lookup that the scan performs for this
target fails (the `continue`-after-log branches). -/
def lookupFailed (target : GoStr) (p : OSProc) : Bool :=
  if target.length ≤ 15 then
    match getProcName p with
    | .error _ => true
    | .ok _ => false
  else
    match getProcCmdline p with
    | .error _ => true
    | .ok _ => false

/-- One iteration of the scan loop of `GetProcessesWithContext`: store the
process under its pid when it matches, otherwise leave the map alone. -/
def scanStep (target : GoStr) (ret : ProcMap) (p : OSProc) : ProcMap :=
  match scanMatch target p with
  | some nm => ret.set p.pid ⟨p.pid, nm⟩
  | none => ret

/-- The scan loop of `GetProcessesWithContext`: builds the fresh ordered
map `ret` from the enumerated processes. -/
def buildProcessMap (target : GoStr) (procs : List OSProc) : ProcMap :=
  procs.foldl (scanStep target) []

/-- The monitor state touched by `GetProcessesWithContext`: the cached
ordered map, the last-sync instant, the target name, and the caching flag.
Time is modelled as abstract clock ticks. -/
structure PMState where
  processes : ProcMap
  lastSync : Nat
  name : GoStr
  disablePidCaching : Bool
  deriving DecidableEq

/-- The `10 * time.Second` freshness interval, in abstract clock ticks. -/
def syncInterval : Nat := 10

/-- The OS facts one call observes: per-pid liveness
(`process.PidExistsWithContext` returns `(bool, error)`) and the process
enumeration (`process.ProcessesWithContext`). -/
structure OSEnv where
  pidExists : Int → Except GoStr Bool
  procList : Except GoStr (List OSProc)

/-- `ProcessMonitor.GetProcessesWithContext` under the lock: the cache-hit
branches, the purge of dead pids, the enumeration (whose failure is
returned wrapped, as the message list of `errors.Join`), the scan loop, and
the wholesale replacement of the map plus the timestamp update. -/
def GetProcessesWithContext (env : OSEnv) (now : Nat) (st : PMState) :
    Except (List GoStr) ProcMap × PMState :=
  if st.processes.length > 0 ∧ st.disablePidCaching = false then
    if st.lastSync + syncInterval < now then (.ok st.processes, st)
    else (.ok st.processes, st)
  else
    let purged := st.processes.filter
      (fun e => match env.pidExists e.1 with
        | .ok ret => ret
        | .error _ => false)
    match env.procList with
    | .error err =>
      (.error [lit "failed to get processes", err], { st with processes := purged })
    | .ok procs =>
      let ret := buildProcessMap st.name procs
      (.ok ret, { st with processes := ret, lastSync := now })

/-! ## Helper lemmas -/

theorem roundValue_nonneg {v : ℚ} (hv : 0 ≤ v) (d : Nat) : 0 ≤ RoundValue v d := by
  unfold RoundValue
  have h10 : (0:ℚ) < 10 ^ d := by positivity
  apply div_nonneg _ (le_of_lt h10)
  have : (0:ℤ) ≤ round (v * 10 ^ d) := by
    rw [round_eq]
    exact Int.floor_nonneg.mpr (by positivity)
  exact_mod_cast this

theorem roundValue_le_hundred {v : ℚ} (hv : v ≤ 100) : RoundValue v 2 ≤ 100 := by
  unfold RoundValue
  rw [div_le_iff₀ (by positivity)]
  have : round (v * 10 ^ 2) ≤ 10000 := by
    rw [round_eq]
    rw [Int.floor_le_iff]
    push_cast
    nlinarith
  calc (round (v * 10 ^ 2) : ℚ) ≤ (10000 : ℤ) := by exact_mod_cast this
    _ = 100 * 10 ^ 2 := by norm_num

theorem roundValue_intCast (n : ℤ) : RoundValue (n : ℚ) 2 = n := by
  unfold RoundValue
  rw [show ((n : ℚ) * 10 ^ 2) = ((n * 100 : ℤ) : ℚ) by push_cast; ring, round_intCast]
  push_cast
  ring

theorem roundValue_zero : RoundValue 0 2 = 0 := by
  have := roundValue_intCast 0
  norm_num at this
  exact this

theorem roundValue_hundred : RoundValue 100 2 = 100 := by
  have := roundValue_intCast 100
  norm_num at this
  exact this

theorem roundValue_fifty : RoundValue 50 2 = 50 := by
  have := roundValue_intCast 50
  norm_num at this
  exact this

/-! ## Claim theorems -/

/-- C1: `CalculateUsage(prev, curr)` returns the sentinel `-1` exactly when
a counter regression is present (`currTotal ≤ prevTotal` or
`currIdle < prevIdle`, with idle = Idle + IOWait and total = idle +
non-idle); in particular every zero-delta call `CalculateUsage(s, s)`
returns `-1`, and no non-regression input yields `-1`. -/
theorem calculateUsage_invalid_iff :
    (∀ prev curr : CPUCoreStats,
        CalculateUsage prev curr = -1 ↔
          curr.totalSum ≤ prev.totalSum ∨ curr.idleSum < prev.idleSum) ∧
    (∀ s : CPUCoreStats, CalculateUsage s s = -1) := by
  constructor
  · intro prev curr
    simp only [CalculateUsage, CPUCoreStats.totalSum, CPUCoreStats.idleSum,
      CPUCoreStats.nonIdleSum]
    split_ifs with h1 h2 h3 h4
    · constructor
      · intro _; left; linarith
      · intro _; rfl
    · constructor
      · intro _; right; linarith
      · intro _; rfl
    · constructor
      · intro h0; norm_num at h0
      · intro hreg
        rcases hreg with hreg | hreg
        · exact absurd hreg (by linarith)
        · exact absurd hreg (by linarith)
    · constructor
      · intro h0; norm_num at h0
      · intro hreg
        rcases hreg with hreg | hreg
        · exact absurd hreg (by linarith)
        · exact absurd hreg (by linarith)
    · push_neg at h3
      constructor
      · intro h0
        have hnn := roundValue_nonneg h3 2
        rw [h0] at hnn
        norm_num at hnn
      · intro hreg
        rcases hreg with hreg | hreg
        · exact absurd hreg (by linarith)
        · exact absurd hreg (by linarith)
  · intro s
    simp [CalculateUsage]

/-- C2: on every non-regression input (`currTotal > prevTotal` and
`currIdle ≥ prevIdle`) the result lies in `[0, 100]` and equals the
analytic percentage `((totalDelta - idleDelta) / totalDelta) * 100` clamped
to `[0, 100]` and rounded to two decimals; the spec's two concrete examples
evaluate to `50` and `100`. -/
theorem calculateUsage_valid_range_and_formula :
    (∀ prev curr : CPUCoreStats,
        prev.totalSum < curr.totalSum → prev.idleSum ≤ curr.idleSum →
          0 ≤ CalculateUsage prev curr ∧ CalculateUsage prev curr ≤ 100 ∧
          CalculateUsage prev curr = specUsagePercent prev curr) ∧
    CalculateUsage { User := 100, System := 100, Idle := 200 }
        { User := 150, System := 150, Idle := 300 } = 50 ∧
    CalculateUsage { User := 100, Idle := 100 } { User := 200, Idle := 100 } = 100 := by
  refine ⟨?_, ?_, ?_⟩
  · intro prev curr htot hidle
    have hiff : specUsagePercent prev curr = specUsagePercent prev curr := rfl
    simp only [CalculateUsage, specUsagePercent, CPUCoreStats.totalSum,
      CPUCoreStats.idleSum, CPUCoreStats.nonIdleSum] at htot hidle ⊢
    split_ifs with h1 h2 h3 h4
    · exact absurd h1 (by linarith)
    · exact absurd h2 (by linarith)
    · -- usage < 0: the code returns 0, the spec clamps to 0
      refine ⟨le_refl 0, by norm_num, ?_⟩
      rw [max_eq_left (le_of_lt h3), min_eq_right (by linarith)]
      exact roundValue_zero.symm
    · -- usage > 100: the code returns 100, the spec clamps to 100
      refine ⟨by norm_num, le_refl 100, ?_⟩
      rw [max_eq_right (by linarith), min_eq_left (le_of_lt h4)]
      exact roundValue_hundred.symm
    · -- 0 ≤ usage ≤ 100: both sides round the same value
      push_neg at h3 h4
      refine ⟨roundValue_nonneg h3 2, roundValue_le_hundred h4, ?_⟩
      rw [max_eq_right h3, min_eq_right h4]
  · simp only [CalculateUsage]
    norm_num
    exact roundValue_fifty
  · simp only [CalculateUsage]
    norm_num
    exact roundValue_hundred

/-- Witness for C2 at the spec's first concrete example. -/
theorem calculateUsage_valid_range_and_formula_witness :
    (CPUCoreStats.totalSum { User := 100, System := 100, Idle := 200 } <
        CPUCoreStats.totalSum { User := 150, System := 150, Idle := 300 } ∧
      CPUCoreStats.idleSum { User := 100, System := 100, Idle := 200 } ≤
        CPUCoreStats.idleSum { User := 150, System := 150, Idle := 300 }) ∧
    (0 ≤ CalculateUsage { User := 100, System := 100, Idle := 200 }
          { User := 150, System := 150, Idle := 300 } ∧
      CalculateUsage { User := 100, System := 100, Idle := 200 }
          { User := 150, System := 150, Idle := 300 } ≤ 100 ∧
      CalculateUsage { User := 100, System := 100, Idle := 200 }
          { User := 150, System := 150, Idle := 300 } =
        specUsagePercent { User := 100, System := 100, Idle := 200 }
          { User := 150, System := 150, Idle := 300 }) := by
  have h1 : CPUCoreStats.totalSum { User := 100, System := 100, Idle := 200 } <
      CPUCoreStats.totalSum { User := 150, System := 150, Idle := 300 } := by
    norm_num [CPUCoreStats.totalSum, CPUCoreStats.idleSum, CPUCoreStats.nonIdleSum]
  have h2 : CPUCoreStats.idleSum { User := 100, System := 100, Idle := 200 } ≤
      CPUCoreStats.idleSum { User := 150, System := 150, Idle := 300 } := by
    norm_num [CPUCoreStats.idleSum]
  exact ⟨⟨h1, h2⟩, calculateUsage_valid_range_and_formula.1 _ _ h1 h2⟩

/-- C6: the link-status backend selection, performed once at construction,
returns the first available backend in the fixed priority order `iw`,
`nmcli`, `/proc/net/wireless`, and `none` when none is available. -/
theorem newWifiMonitor_first_available (a b c : Bool) :
    newWifiMonitor a b c = specBackendOrder.find? (backendAvailable a b c) := by
  cases a <;> cases b <;> cases c <;> rfl

/-- Witness for C6 with only `/proc/net/wireless` available. -/
theorem newWifiMonitor_first_available_witness :
    newWifiMonitor false false true =
      specBackendOrder.find? (backendAvailable false false true) :=
  newWifiMonitor_first_available false false true

theorem cache_hit_aux (env : OSEnv) (now : Nat) (st : PMState)
    (hne : st.processes.length > 0) (hcache : st.disablePidCaching = false) :
    GetProcessesWithContext env now st = (.ok st.processes, st) := by
  unfold GetProcessesWithContext
  rw [if_pos (⟨hne, hcache⟩ : st.processes.length > 0 ∧ st.disablePidCaching = false)]
  split <;> rfl

/-- C5: with a non-empty cache and pid caching enabled,
`GetProcessesWithContext` returns the cached map unchanged (same map, same
state), whatever the clock says: the 10-second freshness comparison selects
between two extensionally equal branches. -/
theorem getProcesses_cache_hit (env : OSEnv) (now now' : Nat) (st : PMState)
    (hne : st.processes.length > 0) (hcache : st.disablePidCaching = false) :
    GetProcessesWithContext env now st = (.ok st.processes, st) ∧
    GetProcessesWithContext env now st = GetProcessesWithContext env now' st := by
  refine ⟨cache_hit_aux env now st hne hcache, ?_⟩
  rw [cache_hit_aux env now st hne hcache, cache_hit_aux env now' st hne hcache]

/-- Witness for C5: one call inside the freshness window and one far past
it both return the cached singleton map as-is. -/
theorem getProcesses_cache_hit_witness :
    GetProcessesWithContext ⟨fun _ => .ok true, .ok []⟩ 1000
        ⟨[(1, ⟨1, lit "x"⟩)], 0, lit "x", false⟩ =
      (.ok [(1, ⟨1, lit "x"⟩)], ⟨[(1, ⟨1, lit "x"⟩)], 0, lit "x", false⟩) ∧
    GetProcessesWithContext ⟨fun _ => .ok true, .ok []⟩ 1000
        ⟨[(1, ⟨1, lit "x"⟩)], 0, lit "x", false⟩ =
      GetProcessesWithContext ⟨fun _ => .ok true, .ok []⟩ 5
        ⟨[(1, ⟨1, lit "x"⟩)], 0, lit "x", false⟩ :=
  getProcesses_cache_hit ⟨fun _ => .ok true, .ok []⟩ 1000 5
    ⟨[(1, ⟨1, lit "x"⟩)], 0, lit "x", false⟩ (by decide) rfl

/-- C9 counterexample: the handle caches through the empty-string sentinel,
so a first *successful* call that returns `""` is not memoized — the next
call consults the OS again and can return a different value, refuting
"after a first successful call every later call returns the same stored
value without consulting the OS again". -/
theorem handle_memo_counterexample :
    (exeCall (.ok []) ⟨true, [], []⟩).result = .ok [] ∧
    (exeCall (.ok (lit "/bin/x")) (exeCall (.ok []) ⟨true, [], []⟩).state).consultedOS = true ∧
    (exeCall (.ok (lit "/bin/x")) (exeCall (.ok []) ⟨true, [], []⟩).state).result =
      .ok (lit "/bin/x") ∧
    (Except.ok (lit "/bin/x") : Except GoStr GoStr) ≠ .ok [] := by
  refine ⟨rfl, rfl, rfl, ?_⟩
  intro h
  injection h with h
  exact absurd h (by decide)

/-- C9 amended: after a first successful `Exe()` (resp. `Cmdline()`) call
that returns a non-empty string, every later call returns the same stored
value with unchanged state and without consulting the OS; a successful
fetch of the empty string is not cached. -/
theorem handle_memoized_after_nonempty (p : ProcessHandle)
    (f1 f2 : Except GoStr GoStr) (v : GoStr) :
    ((exeCall f1 p).result = .ok v → ¬ v.isEmpty = true →
      exeCall f2 (exeCall f1 p).state = ⟨.ok v, (exeCall f1 p).state, false⟩) ∧
    ((cmdlineCall f1 p).result = .ok v → ¬ v.isEmpty = true →
      cmdlineCall f2 (cmdlineCall f1 p).state = ⟨.ok v, (cmdlineCall f1 p).state, false⟩) := by
  constructor
  · intro hok hne
    rw [Bool.not_eq_true] at hne
    by_cases hc : p.exe.isEmpty = true
    · by_cases hi : p.hasInner = true
      · cases f1 with
        | error e =>
          have h1 : exeCall (.error e) p = ⟨.error e, p, true⟩ := by
            simp [exeCall, hc, hi]
          rw [h1] at hok
          exact absurd hok (by simp)
        | ok w =>
          have h1 : exeCall (.ok w) p = ⟨.ok w, { p with exe := w }, true⟩ := by
            simp [exeCall, hc, hi]
          rw [h1] at hok ⊢
          simp only [Except.ok.injEq] at hok
          subst hok
          simp [exeCall, hne]
      · have h1 : exeCall f1 p = ⟨.error (lit "process is nil"), p, false⟩ := by
          simp [exeCall, hc, hi]
        rw [h1] at hok
        exact absurd hok (by simp)
    · have h1 : exeCall f1 p = ⟨.ok p.exe, p, false⟩ := by
        simp [exeCall, hc]
      rw [h1] at hok ⊢
      simp only [Except.ok.injEq] at hok
      subst hok
      simp [exeCall, hc]
  · intro hok hne
    rw [Bool.not_eq_true] at hne
    by_cases hc : p.cmdline.isEmpty = true
    · by_cases hi : p.hasInner = true
      · cases f1 with
        | error e =>
          have h1 : cmdlineCall (.error e) p = ⟨.error e, p, true⟩ := by
            simp [cmdlineCall, hc, hi]
          rw [h1] at hok
          exact absurd hok (by simp)
        | ok w =>
          have h1 : cmdlineCall (.ok w) p = ⟨.ok w, { p with cmdline := w }, true⟩ := by
            simp [cmdlineCall, hc, hi]
          rw [h1] at hok ⊢
          simp only [Except.ok.injEq] at hok
          subst hok
          simp [cmdlineCall, hne]
      · have h1 : cmdlineCall f1 p = ⟨.error (lit "process is nil"), p, false⟩ := by
          simp [cmdlineCall, hc, hi]
        rw [h1] at hok
        exact absurd hok (by simp)
    · have h1 : cmdlineCall f1 p = ⟨.ok p.cmdline, p, false⟩ := by
        simp [cmdlineCall, hc]
      rw [h1] at hok ⊢
      simp only [Except.ok.injEq] at hok
      subst hok
      simp [cmdlineCall, hc]

/-- Witness for amended C9: a second `Exe()` call after a successful fetch
of `/bin/sh` returns the cached value without touching the OS, even though
the OS would now answer with an error. -/
theorem handle_memoized_after_nonempty_witness :
    exeCall (.error []) (exeCall (.ok (lit "/bin/sh")) ⟨true, [], []⟩).state =
      ⟨.ok (lit "/bin/sh"), (exeCall (.ok (lit "/bin/sh")) ⟨true, [], []⟩).state, false⟩ :=
  (handle_memoized_after_nonempty ⟨true, [], []⟩ (.ok (lit "/bin/sh")) (.error [])
    (lit "/bin/sh")).1 rfl (by decide)

theorem mem_keys_set (m : ProcMap) (k : Int) (v : MonitoredProcess) (x : Int) :
    x ∈ (m.set k v).map Prod.fst ↔ x ∈ m.map Prod.fst ∨ x = k := by
  unfold ProcMap.set
  split_ifs with h
  · have hkeys : (m.map (fun e => if e.1 = k then (k, v) else e)).map Prod.fst =
        m.map Prod.fst := by
      rw [List.map_map]
      apply List.map_congr_left
      intro e _
      by_cases he : e.1 = k
      · simp [he]
      · simp [he]
    rw [hkeys]
    constructor
    · exact Or.inl
    · rintro (hx | rfl)
      · exact hx
      · obtain ⟨e, hem, hek⟩ := List.any_eq_true.mp h
        rw [← of_decide_eq_true hek]
        exact List.mem_map.mpr ⟨e, hem, rfl⟩
  · simp [List.map_append]

theorem mem_keys_scanStep (target : GoStr) (ret : ProcMap) (p : OSProc) (pid : Int) :
    pid ∈ (scanStep target ret p).map Prod.fst ↔
      pid ∈ ret.map Prod.fst ∨ (p.pid = pid ∧ (scanMatch target p).isSome = true) := by
  unfold scanStep
  cases hm : scanMatch target p with
  | none => simp
  | some nm =>
    rw [mem_keys_set]
    simp only [Option.isSome_some, and_true]
    constructor
    · rintro (hx | rfl)
      · exact Or.inl hx
      · exact Or.inr rfl
    · rintro (hx | rfl)
      · exact Or.inl hx
      · exact Or.inr rfl

theorem mem_keys_foldl_scan (target : GoStr) (procs : List OSProc) :
    ∀ (acc : ProcMap) (pid : Int),
      pid ∈ (procs.foldl (scanStep target) acc).map Prod.fst ↔
        pid ∈ acc.map Prod.fst ∨
          ∃ p ∈ procs, p.pid = pid ∧ (scanMatch target p).isSome = true := by
  induction procs with
  | nil => simp
  | cons q rest ih =>
    intro acc pid
    simp only [List.foldl_cons]
    rw [ih, mem_keys_scanStep]
    constructor
    · rintro ((hx | hq) | ⟨p, hp, hpe⟩)
      · exact Or.inl hx
      · exact Or.inr ⟨q, List.mem_cons_self q rest, hq⟩
      · exact Or.inr ⟨p, List.mem_cons_of_mem q hp, hpe⟩
    · rintro (hx | ⟨p, hp, hpe⟩)
      · exact Or.inl (Or.inl hx)
      · rcases List.mem_cons.mp hp with rfl | hp'
        · exact Or.inl (Or.inr hpe)
        · exact Or.inr ⟨p, hp', hpe⟩

/-- C3: during a full resync, a process is stored exactly when it matches
the length-based strategy: for targets of at most 15 characters, its
`/proc/<pid>/comm` name (newline stripped) equals the target; for longer
targets, the first NUL-separated `/proc/<pid>/cmdline` argument is
non-empty and its base name or the full argument equals the target; and the
pids of the freshly built map are exactly the pids of matching enumerated
processes. -/
theorem scan_match_strategy :
    (∀ (target : GoStr) (p : OSProc),
        (scanMatch target p).isSome = true ↔
          ((target.length ≤ 15 ∧ getProcName p = .ok target) ∨
           (15 < target.length ∧ ∃ c, getProcCmdline p = .ok c ∧ c ≠ [] ∧
              (filepathBase c = target ∨ c = target)))) ∧
    (∀ (target : GoStr) (procs : List OSProc) (pid : Int),
        pid ∈ (buildProcessMap target procs).map Prod.fst ↔
          ∃ p ∈ procs, p.pid = pid ∧ (scanMatch target p).isSome = true) := by
  constructor
  · intro target p
    unfold scanMatch
    by_cases hlen : target.length ≤ 15
    · rw [if_pos hlen]
      cases hname : getProcName p with
      | error e =>
        dsimp only
        constructor
        · intro h; exact absurd h (by simp)
        · rintro (⟨_, hok⟩ | ⟨hgt, _⟩)
          · exact Except.noConfusion hok
          · omega
      | ok procName =>
        dsimp only
        by_cases heq : procName = target
        · rw [if_pos heq]
          constructor
          · intro _; exact Or.inl ⟨hlen, by rw [heq]⟩
          · intro _; rfl
        · rw [if_neg heq]
          constructor
          · intro h; exact absurd h (by simp)
          · rintro (⟨_, hok⟩ | ⟨hgt, _⟩)
            · injection hok with hok; exact (heq hok).elim
            · omega
    · rw [if_neg hlen]
      push_neg at hlen
      cases hcmd : getProcCmdline p with
      | error e =>
        dsimp only
        constructor
        · intro h; exact absurd h (by simp)
        · rintro (⟨hle, _⟩ | ⟨_, c, hok, _⟩)
          · omega
          · exact Except.noConfusion hok
      | ok cmdline =>
        dsimp only
        by_cases hemp : cmdline.isEmpty = true
        · rw [if_pos hemp]
          constructor
          · intro h; exact absurd h (by simp)
          · rintro (⟨hle, _⟩ | ⟨_, c, hok, hcne, _⟩)
            · omega
            · injection hok with hok
              subst hok
              exact (hcne (List.isEmpty_iff.mp hemp)).elim
        · rw [if_neg hemp]
          by_cases hbase : filepathBase cmdline = target
          · rw [if_pos hbase]
            constructor
            · intro _
              exact Or.inr ⟨hlen, cmdline, rfl,
                fun he => hemp (by rw [he]; rfl), Or.inl hbase⟩
            · intro _; rfl
          · rw [if_neg hbase]
            by_cases hverb : cmdline = target
            · rw [if_pos hverb]
              constructor
              · intro _
                exact Or.inr ⟨hlen, cmdline, rfl,
                  fun he => hemp (by rw [he]; rfl), Or.inr hverb⟩
              · intro _; rfl
            · rw [if_neg hverb]
              constructor
              · intro h; exact absurd h (by simp)
              · rintro (⟨hle, _⟩ | ⟨_, c, hok, _, hmatch⟩)
                · omega
                · injection hok with hok
                  subst hok
                  rcases hmatch with hm | hm
                  · exact (hbase hm).elim
                  · exact (hverb hm).elim
  · intro target procs pid
    unfold buildProcessMap
    rw [mem_keys_foldl_scan]
    simp

theorem scanMatch_of_lookupFailed (target : GoStr) (p : OSProc)
    (h : lookupFailed target p = true) : scanMatch target p = none := by
  unfold lookupFailed at h
  unfold scanMatch
  by_cases hlen : target.length ≤ 15
  · rw [if_pos hlen] at h ⊢
    cases hname : getProcName p with
    | error e => rfl
    | ok procName => rw [hname] at h; exact Bool.noConfusion h
  · rw [if_neg hlen] at h ⊢
    cases hcmd : getProcCmdline p with
    | error e => rfl
    | ok cmdline => rw [hcmd] at h; exact Bool.noConfusion h

theorem foldl_scan_skips_failed (target : GoStr) (procs : List OSProc) :
    ∀ acc : ProcMap,
      procs.foldl (scanStep target) acc =
        (procs.filter (fun p => ! lookupFailed target p)).foldl (scanStep target) acc := by
  induction procs with
  | nil => intro acc; rfl
  | cons q rest ih =>
    intro acc
    by_cases hq : lookupFailed target q = true
    · have hstep : scanStep target acc q = acc := by
        unfold scanStep
        rw [scanMatch_of_lookupFailed target q hq]
      simp only [List.foldl_cons, List.filter_cons, hq, Bool.not_true, hstep]
      exact ih acc
    · rw [Bool.not_eq_true] at hq
      simp only [List.foldl_cons, List.filter_cons, hq, Bool.not_false]
      exact ih _

/-- C8: a failed process enumeration is returned as a wrapped error with no
mapping; a failed per-process lookup only skips that process (the built map
is unchanged if the failing processes are removed from the enumeration) and
the scan still completes, wholesale-replacing the cached map and updating
the sync timestamp. -/
theorem getProcesses_sync_behavior (env : OSEnv) (now : Nat) (st : PMState)
    (hsync : st.processes.length = 0 ∨ st.disablePidCaching = true) :
    (∀ err, env.procList = .error err →
        GetProcessesWithContext env now st =
          (.error [lit "failed to get processes", err],
           { st with processes := (st.processes.filter
              (fun e => match env.pidExists e.1 with
                | .ok ret => ret
                | .error _ => false)) })) ∧
    (∀ procs, env.procList = .ok procs →
        GetProcessesWithContext env now st =
          (.ok (buildProcessMap st.name procs),
           { st with processes := buildProcessMap st.name procs, lastSync := now }) ∧
        buildProcessMap st.name procs =
          buildProcessMap st.name (procs.filter (fun p => ! lookupFailed st.name p))) := by
  have hcond : ¬ (st.processes.length > 0 ∧ st.disablePidCaching = false) := by
    rintro ⟨hlen, hflag⟩
    rcases hsync with h | h
    · omega
    · rw [h] at hflag; exact Bool.noConfusion hflag
  constructor
  · intro err herr
    unfold GetProcessesWithContext
    rw [if_neg hcond, herr]
  · intro procs hprocs
    constructor
    · unfold GetProcessesWithContext
      rw [if_neg hcond, hprocs]
    · unfold buildProcessMap
      exact foldl_scan_skips_failed st.name procs []

/-- Witness for C8: a scan over two processes, one of whose `/proc` reads
fails, completes with only the readable matching process stored, and the
state is wholesale-replaced with the sync timestamp updated. -/
theorem getProcesses_sync_behavior_witness :
    GetProcessesWithContext
        ⟨fun _ => .ok true, .ok [⟨1, .ok (lit "x\n"), .ok []⟩, ⟨2, .error [], .ok []⟩]⟩
        42 ⟨[], 0, lit "x", false⟩ =
      (.ok (buildProcessMap (lit "x") [⟨1, .ok (lit "x\n"), .ok []⟩, ⟨2, .error [], .ok []⟩]),
       ⟨buildProcessMap (lit "x") [⟨1, .ok (lit "x\n"), .ok []⟩, ⟨2, .error [], .ok []⟩],
        42, lit "x", false⟩) ∧
    buildProcessMap (lit "x") [⟨1, .ok (lit "x\n"), .ok []⟩, ⟨2, .error [], .ok []⟩] =
      buildProcessMap (lit "x")
        ([⟨1, .ok (lit "x\n"), .ok []⟩, ⟨2, .error [], .ok []⟩].filter
          (fun p => ! lookupFailed (lit "x") p)) :=
  (getProcesses_sync_behavior
      ⟨fun _ => .ok true, .ok [⟨1, .ok (lit "x\n"), .ok []⟩, ⟨2, .error [], .ok []⟩]⟩
      42 ⟨[], 0, lit "x", false⟩ (Or.inl rfl)).2
    [⟨1, .ok (lit "x\n"), .ok []⟩, ⟨2, .error [], .ok []⟩] rfl

/-- C4 counterexample: the `/proc/net/wireless` parser aborts on its first
field-level parse error and returns a nil snapshot — on a matching row
whose signal column (`col[3] = "worse"`) is unparsable, it returns
`(nil, err)` carrying only that one error even though the rate column
(`col[2] = "bad"`) is also unparsable, refuting "every backend's parser
collects and joins all field errors and returns the partially populated
snapshot". -/
theorem parser_abort_counterexample :
    procParseNetworkStatus (lit "wlan0") (lit "wlan0: 0 bad worse") =
      .value (none, some (.parseErr [lit "invalid syntax"])) ∧
    goParseFloat (lit "bad") = .error (lit "invalid syntax") := by
  exact ⟨by decide, by decide⟩

/-- C4 amended: the `iw` and `nmcli` parsers collect and join field-level
parse errors and return the partially populated snapshot alongside the
joined (non-empty) error, while the `/proc/net/wireless` parser aborts on
the first field error, returning a nil snapshot with exactly one error;
concretely, an `nmcli` row with two bad fields yields a snapshot together
with both errors joined. -/
theorem parser_error_collection (adapter out : GoStr) (st : Option networkStatus)
    (ms : List GoStr) :
    (iwParseNetworkStatus out = .value (st, some (.parseErr ms)) →
      st ≠ none ∧ ms ≠ []) ∧
    (nmcliParseNetworkStatus adapter out = .value (st, some (.parseErr ms)) →
      st ≠ none ∧ ms ≠ []) ∧
    (procParseNetworkStatus adapter out = .value (st, some (.parseErr ms)) →
      st = none ∧ ms.length = 1) ∧
    nmcliParseNetworkStatus (lit "wlan0") (lit "yes:a:Net:c:d:e f:sig:wlan0") =
      .value (some ⟨lit "Net", 1, -1, 0, 0, 0, 0, 0, 0, 0⟩,
              some (.parseErr [lit "invalid syntax", lit "invalid syntax"])) := by
  refine ⟨?_, ?_, ?_, by decide⟩
  · intro h
    unfold iwParseNetworkStatus at h
    split_ifs at h with h1 h2
    · simp at h
    · simp at h
    · cases hres : iwParseLines ({}, []) (splitOnChar '\n' out) with
      | panic => rw [hres] at h; exact absurd h (by simp)
      | value pr =>
        obtain ⟨status, errs⟩ := pr
        rw [hres] at h
        by_cases he : errs.isEmpty = true
        · simp [he] at h
        · rw [Bool.not_eq_true] at he
          simp only [he, Bool.false_eq_true, if_false, GoResult.value.injEq,
            Prod.mk.injEq, Option.some.injEq, wifiErr.parseErr.injEq] at h
          obtain ⟨hst, hms⟩ := h
          constructor
          · rw [← hst]; simp
          · rw [← hms]
            intro hc
            rw [hc] at he
            exact Bool.noConfusion he
  · intro h
    unfold nmcliParseNetworkStatus at h
    dsimp only at h
    cases hfind : (splitOnChar '\n' out).find?
        (fun l => goEndsWith l adapter && goStartsWith l (lit "yes:")) with
    | none =>
      rw [hfind] at h
      dsimp only at h
      split_ifs at h <;> simp at h
    | some line =>
      rw [hfind] at h
      dsimp only at h
      by_cases hlen : (splitOnChar ':' line).length < 7
      · rw [if_pos hlen] at h
        exact absurd h (by simp)
      · rw [if_neg hlen] at h
        cases ha : goAtoi ((splitOnChar ':' line).getD 6 []) with
        | ok v =>
          rw [ha] at h
          cases hf : goParseFloat
              ((splitOnChar ' ' ((splitOnChar ':' line).getD 5 [])).getD 0 []) with
          | ok w => rw [hf] at h; simp at h
          | error m =>
            rw [hf] at h
            simp only [List.nil_append, List.isEmpty_cons, Bool.false_eq_true, if_false,
              GoResult.value.injEq, Prod.mk.injEq, Option.some.injEq,
              wifiErr.parseErr.injEq] at h
            obtain ⟨hst, hms⟩ := h
            exact ⟨by rw [← hst]; simp, by rw [← hms]; simp⟩
        | error m =>
          rw [ha] at h
          cases hf : goParseFloat
              ((splitOnChar ' ' ((splitOnChar ':' line).getD 5 [])).getD 0 []) with
          | ok w =>
            rw [hf] at h
            simp only [List.append_nil, List.isEmpty_cons, Bool.false_eq_true, if_false,
              GoResult.value.injEq, Prod.mk.injEq, Option.some.injEq,
              wifiErr.parseErr.injEq] at h
            obtain ⟨hst, hms⟩ := h
            exact ⟨by rw [← hst]; simp, by rw [← hms]; simp⟩
          | error m2 =>
            rw [hf] at h
            simp only [List.cons_append, List.nil_append, List.isEmpty_cons,
              Bool.false_eq_true, if_false, GoResult.value.injEq, Prod.mk.injEq,
              Option.some.injEq, wifiErr.parseErr.injEq] at h
            obtain ⟨hst, hms⟩ := h
            exact ⟨by rw [← hst]; simp, by rw [← hms]; simp⟩
  · intro h
    unfold procParseNetworkStatus at h
    dsimp only at h
    cases hfind : ((splitOnChar '\n' out).map goTrimSpace).find?
        (fun l => goStartsWith l adapter) with
    | none => rw [hfind] at h; simp at h
    | some line =>
      rw [hfind] at h
      dsimp only at h
      by_cases hlen : (goFields line).length < 4
      · rw [if_pos hlen] at h
        exact absurd h (by simp)
      · rw [if_neg hlen] at h
        cases ha : goAtoi (goTrimSuffix ((goFields line).getD 3 []) (lit ".")) with
        | error m =>
          rw [ha] at h
          simp only [GoResult.value.injEq, Prod.mk.injEq, Option.some.injEq,
            wifiErr.parseErr.injEq] at h
          obtain ⟨hst, hms⟩ := h
          exact ⟨hst.symm, by rw [← hms]; rfl⟩
        | ok v =>
          rw [ha] at h
          cases hf : goParseFloat ((goFields line).getD 2 []) with
          | error m =>
            rw [hf] at h
            simp only [GoResult.value.injEq, Prod.mk.injEq, Option.some.injEq,
              wifiErr.parseErr.injEq] at h
            obtain ⟨hst, hms⟩ := h
            exact ⟨hst.symm, by rw [← hms]; rfl⟩
          | ok w => rw [hf] at h; simp at h

/-- Witness for amended C4: the two-bad-fields `nmcli` row produces a
non-nil snapshot and a non-empty joined error list. -/
theorem parser_error_collection_witness :
    (some (⟨lit "Net", 1, -1, 0, 0, 0, 0, 0, 0, 0⟩ : networkStatus) ≠ none) ∧
    ([lit "invalid syntax", lit "invalid syntax"] ≠ ([] : List GoStr)) :=
  (parser_error_collection (lit "wlan0") (lit "yes:a:Net:c:d:e f:sig:wlan0")
      (some ⟨lit "Net", 1, -1, 0, 0, 0, 0, 0, 0, 0⟩)
      [lit "invalid syntax", lit "invalid syntax"]).2.1 (by decide)

/-- C10 counterexample: all three parsers can index out of bounds (a Go
panic, not a returned error): an `nmcli` row `yes:wlan0` has no seventh
column, a `/proc/net/wireless` row equal to the bare adapter name has no
fourth field, and an `iw` line `rx bitrate:` has no second token after the
colon, refuting totality on arbitrary input. -/
theorem parser_totality_counterexample :
    nmcliParseNetworkStatus (lit "wlan0") (lit "yes:wlan0") = .panic ∧
    procParseNetworkStatus (lit "wlan0") (lit "wlan0") = .panic ∧
    iwParseNetworkStatus (lit "rx bitrate:") = .panic := by
  exact ⟨by decide, by decide, by decide⟩

theorem iwParseStep_no_panic (st : networkStatus × List GoStr) (l : GoStr)
    (h : (goStartsWith (goTrimSpace l) (lit "rx bitrate:") = true ∨
          goStartsWith (goTrimSpace l) (lit "tx bitrate:") = true) →
         2 ≤ (splitOnChar ' ' ((splitOnChar ':' (goTrimSpace l)).getD 1 [])).length) :
    iwParseStep st l ≠ .panic := by
  unfold iwParseStep
  dsimp only
  by_cases h1 : goStartsWith (goTrimSpace l) (lit "SSID:") = true
  · rw [if_pos h1]; simp
  · rw [if_neg h1]
    by_cases h2 : goStartsWith (goTrimSpace l) (lit "freq:") = true
    · rw [if_pos h2]
      cases goParseFloat (goTrimSpace ((splitOnChar ':' (goTrimSpace l)).getD 1 [])) <;> simp
    · rw [if_neg h2]
      by_cases h3 : goStartsWith (goTrimSpace l) (lit "signal:") = true
      · rw [if_pos h3]
        cases goAtoi (goTrimSuffix (goTrimSpace ((splitOnChar ':' (goTrimSpace l)).getD 1 []))
          (lit " dBm")) <;> simp
      · rw [if_neg h3]
        by_cases h4 : goStartsWith (goTrimSpace l) (lit "rx bitrate:") = true
        · rw [if_pos h4, if_neg (by have := h (Or.inl h4); omega)]
          cases goParseFloat ((splitOnChar ' '
            ((splitOnChar ':' (goTrimSpace l)).getD 1 [])).getD 1 []) <;> simp
        · rw [if_neg h4]
          by_cases h5 : goStartsWith (goTrimSpace l) (lit "tx bitrate:") = true
          · rw [if_pos h5, if_neg (by have := h (Or.inr h5); omega)]
            cases goParseFloat ((splitOnChar ' '
              ((splitOnChar ':' (goTrimSpace l)).getD 1 [])).getD 1 []) <;> simp
          · rw [if_neg h5]
            simp

theorem iwParseLines_no_panic (lines : List GoStr) :
    ∀ st, (∀ l ∈ lines,
        (goStartsWith (goTrimSpace l) (lit "rx bitrate:") = true ∨
         goStartsWith (goTrimSpace l) (lit "tx bitrate:") = true) →
        2 ≤ (splitOnChar ' ' ((splitOnChar ':' (goTrimSpace l)).getD 1 [])).length) →
      iwParseLines st lines ≠ .panic := by
  induction lines with
  | nil => intro st _; simp [iwParseLines]
  | cons l rest ih =>
    intro st hall
    unfold iwParseLines
    cases hstep : iwParseStep st l with
    | panic =>
      exact absurd hstep (iwParseStep_no_panic st l (hall l (List.mem_cons_self l rest)))
    | value st' =>
      exact ih st' (fun x hx => hall x (List.mem_cons_of_mem l hx))

/-- C10 amended: each parser is total (returns a snapshot or a typed error,
never panics) provided the positionally indexed rows carry enough fields:
at least 7 colon columns on a selected `nmcli` row, at least 4 whitespace
fields on a matching `/proc/net/wireless` row, and a second space token
after the colon on an `iw` bitrate line; without those provisos the
indexing panics (see the counterexample). -/
theorem parser_no_panic (adapter out : GoStr) :
    ((∀ line ∈ splitOnChar '\n' out,
        (goEndsWith line adapter && goStartsWith line (lit "yes:")) = true →
          7 ≤ (splitOnChar ':' line).length) →
      nmcliParseNetworkStatus adapter out ≠ .panic) ∧
    ((∀ line ∈ (splitOnChar '\n' out).map goTrimSpace,
        goStartsWith line adapter = true → 4 ≤ (goFields line).length) →
      procParseNetworkStatus adapter out ≠ .panic) ∧
    ((∀ line ∈ splitOnChar '\n' out,
        (goStartsWith (goTrimSpace line) (lit "rx bitrate:") = true ∨
         goStartsWith (goTrimSpace line) (lit "tx bitrate:") = true) →
        2 ≤ (splitOnChar ' ' ((splitOnChar ':' (goTrimSpace line)).getD 1 [])).length) →
      iwParseNetworkStatus out ≠ .panic) := by
  refine ⟨?_, ?_, ?_⟩
  · intro hall
    unfold nmcliParseNetworkStatus
    dsimp only
    cases hfind : (splitOnChar '\n' out).find?
        (fun l => goEndsWith l adapter && goStartsWith l (lit "yes:")) with
    | none =>
      dsimp only
      split_ifs <;> simp
    | some line =>
      have hmem := List.mem_of_find?_eq_some hfind
      have hpred := List.find?_some hfind
      have hlen := hall line hmem hpred
      dsimp only
      rw [if_neg (by omega)]
      cases goAtoi ((splitOnChar ':' line).getD 6 []) <;>
        cases goParseFloat ((splitOnChar ' ' ((splitOnChar ':' line).getD 5 [])).getD 0 []) <;>
        simp
  · intro hall
    unfold procParseNetworkStatus
    dsimp only
    cases hfind : ((splitOnChar '\n' out).map goTrimSpace).find?
        (fun l => goStartsWith l adapter) with
    | none => simp
    | some line =>
      have hmem := List.mem_of_find?_eq_some hfind
      have hpred := List.find?_some hfind
      have hlen := hall line hmem hpred
      dsimp only
      rw [if_neg (by omega)]
      cases goAtoi (goTrimSuffix ((goFields line).getD 3 []) (lit ".")) <;>
        cases goParseFloat ((goFields line).getD 2 []) <;> simp
  · intro hall
    unfold iwParseNetworkStatus
    split_ifs
    · simp
    · simp
    · cases hres : iwParseLines ({}, []) (splitOnChar '\n' out) with
      | panic => exact absurd hres (iwParseLines_no_panic (splitOnChar '\n' out) _ hall)
      | value pr => obtain ⟨status, errs⟩ := pr; cases errs.isEmpty <;> simp

/-- Witness for amended C10: real tool output rows with enough fields never
panic in any of the three parsers. -/
theorem parser_no_panic_witness :
    nmcliParseNetworkStatus (lit "wlan0")
        (lit "yes:Home:Home:6:2437 MHz:270 Mbit-s:65:wlan0") ≠ .panic ∧
    procParseNetworkStatus (lit "wlan0")
        (lit "wlan0: 0000   54.  -61.  -256        0      0      0") ≠ .panic ∧
    iwParseNetworkStatus
        (lit "SSID: MyNet\nsignal: -54 dBm\nrx bitrate: 270.0 MBit-s") ≠ .panic :=
  ⟨(parser_no_panic (lit "wlan0") (lit "yes:Home:Home:6:2437 MHz:270 Mbit-s:65:wlan0")).1
      (by decide),
   (parser_no_panic (lit "wlan0")
      (lit "wlan0: 0000   54.  -61.  -256        0      0      0")).2.1 (by decide),
   (parser_no_panic (lit "wlan0")
      (lit "SSID: MyNet\nsignal: -54 dBm\nrx bitrate: 270.0 MBit-s")).2.2 (by decide)⟩

/-- C7: the `nmcli` parser selects rows ending with the configured adapter;
if none ends with it, the result is `ErrAdapterNotFound`; if some do but
none also begins with `yes:`, the result is `ErrNotConnected`; and the
first row matching both, when it has its 7 columns and a parsable SIGNAL
column, yields a snapshot whose signal strength is the negation of the
parsed SIGNAL value (and whose network name is the SSID column). -/
theorem nmcli_parse_classification (adapter out : GoStr) :
    ((∀ l ∈ splitOnChar '\n' out, goEndsWith l adapter = false) →
        nmcliParseNetworkStatus adapter out = .value (none, some .adapterNotFound)) ∧
    ((∃ l ∈ splitOnChar '\n' out, goEndsWith l adapter = true) →
      (∀ l ∈ splitOnChar '\n' out,
          (goEndsWith l adapter && goStartsWith l (lit "yes:")) = false) →
        nmcliParseNetworkStatus adapter out = .value (none, some .notConnected)) ∧
    (∀ line, (splitOnChar '\n' out).find?
          (fun l => goEndsWith l adapter && goStartsWith l (lit "yes:")) = some line →
      7 ≤ (splitOnChar ':' line).length →
      ∀ v, goAtoi ((splitOnChar ':' line).getD 6 []) = .ok v →
        ∃ st e, nmcliParseNetworkStatus adapter out = .value (some st, e) ∧
          st.SignalStrength = -v ∧ st.NetworkName = (splitOnChar ':' line).getD 2 []) := by
  refine ⟨?_, ?_, ?_⟩
  · intro hnone
    unfold nmcliParseNetworkStatus
    have hfind : (splitOnChar '\n' out).find?
        (fun l => goEndsWith l adapter && goStartsWith l (lit "yes:")) = none := by
      rw [List.find?_eq_none]
      intro l hl
      simp [hnone l hl]
    dsimp only
    rw [hfind]
    dsimp only
    rw [if_neg]
    intro hany
    obtain ⟨l, hl, hsuf⟩ := List.any_eq_true.mp hany
    rw [hnone l hl] at hsuf
    exact Bool.noConfusion hsuf
  · intro hsome hnoyes
    unfold nmcliParseNetworkStatus
    have hfind : (splitOnChar '\n' out).find?
        (fun l => goEndsWith l adapter && goStartsWith l (lit "yes:")) = none := by
      rw [List.find?_eq_none]
      intro l hl
      simp [hnoyes l hl]
    dsimp only
    rw [hfind]
    dsimp only
    rw [if_pos]
    obtain ⟨l, hl, hsuf⟩ := hsome
    exact List.any_eq_true.mpr ⟨l, hl, by simp [hsuf]⟩
  · intro line hfind hlen v hv
    unfold nmcliParseNetworkStatus
    dsimp only
    rw [hfind]
    dsimp only
    rw [if_neg (by omega), hv]
    cases hf : goParseFloat ((splitOnChar ' ' ((splitOnChar ':' line).getD 5 [])).getD 0 []) with
    | error m =>
      dsimp only
      refine ⟨_, _, rfl, ?_, rfl⟩
      dsimp only
      omega
    | ok w =>
      dsimp only
      refine ⟨_, _, rfl, ?_, rfl⟩
      dsimp only
      omega

/-- Witness for C7: a captured two-row `nmcli` listing in which the second
row is the active `wlan0` row with SIGNAL column `65` produces a snapshot
with signal strength `-65`. -/
theorem nmcli_parse_classification_witness :
    ∃ st e, nmcliParseNetworkStatus (lit "wlan0")
        (lit "no:Oth:Oth:1:2412 MHz:130 Mbit-s:40:wlan1\nyes:Home:Home:6:2437 MHz:270 Mbit-s:65:wlan0") =
      .value (some st, e) ∧
      st.SignalStrength = -65 ∧
      st.NetworkName =
        (splitOnChar ':' (lit "yes:Home:Home:6:2437 MHz:270 Mbit-s:65:wlan0")).getD 2 [] :=
  (nmcli_parse_classification (lit "wlan0")
      (lit "no:Oth:Oth:1:2412 MHz:130 Mbit-s:40:wlan1\nyes:Home:Home:6:2437 MHz:270 Mbit-s:65:wlan0")).2.2
    (lit "yes:Home:Home:6:2437 MHz:270 Mbit-s:65:wlan0") (by decide) (by decide) 65 (by decide)

end HwMonitor
